import Mathlib

/-!
Verification of the domain-classification pipeline in `src/main.mjs`
(trieloff/sitealyzer).

Strings are modelled as lists of characters (`Str`), records as a structure
with optional fields (JavaScript object properties that may be absent are
`Option`; `delete row.f` becomes setting the field to `none`; a JavaScript
`null` and `undefined` are both collapsed to `none` since every downstream
read in the program only tests them for truthiness).  Network effects
(`psl.parse`, `dns.resolveAny`, `fetch`) are passed in as explicit oracle
values so that every stage is a pure function of the record plus its
environment.
-/

/-- JavaScript strings, modelled as lists of characters. -/
abbrev Str := List Char

/-- `s.indexOf(c) > -1` in JavaScript: does the character occur? -/
def containsChar (l : Str) (c : Char) : Bool :=
  l.any (fun a => a == c)

/-- `s.split(c)[0]` in JavaScript: everything before the first occurrence
of `c` (the whole string when `c` does not occur). -/
def splitFirst (c : Char) : Str → Str
  | [] => []
  | a :: t => if a == c then [] else a :: splitFirst c t

/-- One resolved DNS record, as returned by `dns.resolveAny`:
an object with a `type` and (for CNAME records) a `value`. -/
structure DNSRec where
  type : Str
  value : Str
deriving DecidableEq

/-- The record flowing through the pipeline.  Fields mirror the properties
the program reads or writes on a row object; all are optional except
`Domain` (rows are built from the Domain column of the input table). -/
structure Row where
  Domain : Str
  Source : Option Str := none
  Comment : Option Str := none
  Parent : Option Str := none
  TLD : Option Str := none
  DNS : Option (List DNSRec) := none
  DNSError : Option Str := none
  HTTPStatus : Option Nat := none
  HTTPHeaders : Option (List (Str × Str)) := none
  HTTPBody : Option Str := none
  HTTPError : Option Str := none
  CDN : Option Str := none
deriving DecidableEq

/-- A fresh record created from an input row that carries only a Domain
column (all other fields absent). -/
def mkRow (d : Str) : Row := { Domain := d }

/-- The string literal `Excluded`. -/
def exclStr : Str := "Excluded".toList

/-- Comment attached by the port check in `flagPorts`. -/
def portsComment : Str :=
  "Cloudflare includes ports that are non-productive, we exclude these domains".toList

/-- Comment attached by the path check in `flagPorts`. -/
def pathComment : Str := "Removed path from domain".toList

/-- `cleanupTrailingDot` (src/main.mjs:39-44): remove one trailing dot. -/
def cleanupTrailingDot (row : Row) : Row :=
  if row.Domain.getLast? = some '.' then
    { row with Domain := row.Domain.dropLast }
  else
    row

/-- The first `if` of `flagPorts` (src/main.mjs:47-50): a colon anywhere
excludes the record without stripping anything from the domain. -/
def portCheck (row : Row) : Row :=
  if containsChar row.Domain ':' then
    { row with Source := some exclStr, Comment := some portsComment }
  else
    row

/-- The second `if` of `flagPorts` (src/main.mjs:51-55): a slash truncates
the domain to the part before it and overwrites the comment. -/
def pathCheck (row : Row) : Row :=
  if containsChar row.Domain '/' then
    { row with Domain := splitFirst '/' row.Domain, Comment := some pathComment }
  else
    row

/-- `flagPorts` (src/main.mjs:46-57): the two checks run in sequence,
port check first. -/
def flagPorts (row : Row) : Row :=
  pathCheck (portCheck row)

/-- The hard-coded list of development parent domains in `flagDev`
(src/main.mjs:60-95), in source order. -/
def devParents : List Str :=
  [ "workers.dev".toList
  , "web.pfizer".toList
  , "templates.pfizer".toList
  , "oastify.com".toList
  , "ngrok-free.app".toList
  , "impactful-1.site".toList
  , "impactful-2.site".toList
  , "impactful-3.site".toList
  , "impactful-4.site".toList
  , "impactful-5.site".toList
  , "hlx-1.page".toList
  , "hlx-4.page".toList
  , "helix3.dev".toList
  , "helix3.page".toList
  , "github.com".toList
  , "github.dev".toList
  , "franklin.pfizer".toList
  , "fastlydemo.net".toList
  , "fastly.net".toList
  , "fastly-aem.page".toList
  , "cloudfront.net".toList
  , "bing.com".toList
  , "aem.page".toList
  , "aem.reviews".toList
  , "aem.live".toList
  , "adobeio-static.net".toList
  , "adobeaemcloud.com".toList
  , "adobe.pfizer".toList
  , "adobe.net".toList
  , "azurefd.net".toList
  , "us-1.magentosite.cloud".toList
  , "us-2.magentosite.cloud".toList
  , "us-3.magentosite.cloud".toList
  , "us-4.magentosite.cloud".toList
  ]

/-- `devParents.includes(x)` where `x` may be an absent field
(`includes(undefined)` is false). -/
def optIncludes (l : List Str) : Option Str → Bool
  | none => false
  | some s => l.contains s

/-- `flagDev` (src/main.mjs:59-101).  Note: the source has no
`Source === Excluded` guard here; the check runs on every record. -/
def flagDev (row : Row) : Row :=
  if optIncludes devParents row.Parent || optIncludes devParents row.TLD then
    { row with Source := some exclStr
             , Comment := some ("Development domain excluded".toList) }
  else
    row

/-- `flagParent` (src/main.mjs:103-111).  The public-suffix library is an
external collaborator; it is passed in as an oracle returning
(`psl.parse(d).domain`, `psl.parse(d).tld`), either of which may be null. -/
def flagParent (pslF : Str → Option Str × Option Str) (row : Row) : Row :=
  if row.Source = some exclStr then
    row
  else
    { row with Parent := (pslF row.Domain).1, TLD := (pslF row.Domain).2 }

/-- `enrichDNS` (src/main.mjs:113-123).  The resolver outcome is an oracle:
either the resolved record list or the caught error. -/
def enrichDNS (res : Except Str (List DNSRec)) (row : Row) : Row :=
  if row.Source = some exclStr then
    row
  else
    match res with
    | Except.ok d => { row with DNS := some d }
    | Except.error e => { row with DNSError := some e }

/-!
A small total regular-expression matcher, used to transliterate the two
regular expressions in `flagIP` (src/main.mjs:131-132) literally.
Bounded repetitions `{n,m}` are expanded; `{1,}` becomes plus.  Matching
uses continuation passing with a fuel argument; the fuel only needs to
exceed the recursion depth of a match attempt, and every use in this file
is on a concrete short string.
-/

/-- Regular expressions over characters: empty word, character class,
concatenation, alternation, Kleene star. -/
inductive RE where
  | eps : RE
  | cls (p : Char → Bool) : RE
  | cat (a b : RE) : RE
  | alt (a b : RE) : RE
  | star (a : RE) : RE

/-- Concatenation of a list of regular expressions. -/
def rcat (l : List RE) : RE := l.foldr RE.cat RE.eps

/-- Alternation of a list of regular expressions (empty list matches
nothing). -/
def ralt : List RE → RE
  | [] => RE.cls (fun _ => false)
  | [r] => r
  | r :: t => RE.alt r (ralt t)

/-- A literal character. -/
def rchar (c : Char) : RE := RE.cls (fun a => a == c)

/-- A literal string. -/
def rlit (s : Str) : RE := rcat (s.map rchar)

/-- `{0,m}` bounded repetition, expanded into optional copies. -/
def ropt (m : Nat) (r : RE) : RE :=
  match m with
  | 0 => RE.eps
  | m + 1 => RE.cat (RE.alt RE.eps r) (ropt m r)

/-- `{n,m}` bounded repetition: `n` required copies then `m - n` optional
ones. -/
def rrep (n m : Nat) (r : RE) : RE :=
  RE.cat (rcat (List.replicate n r)) (ropt (m - n) r)

/-- `{1,}` repetition (one or more). -/
def rplus (r : RE) : RE := RE.cat r (RE.star r)

/-- Fuel-bounded continuation-passing matcher.  `reMatchK fuel r s k` is
true when some split of `s` lets `r` match a front part and `k` accept the
rest.  The star case only recurses on strictly shorter rests, so a fuel
linear in pattern size plus string length suffices. -/
def reMatchK : Nat → RE → Str → (Str → Bool) → Bool
  | 0, _, _, _ => false
  | _ + 1, RE.eps, s, k => k s
  | _ + 1, RE.cls p, s, k =>
    match s with
    | [] => false
    | c :: t => p c && k t
  | fuel + 1, RE.cat a b, s, k =>
    reMatchK fuel a s (fun rest => reMatchK fuel b rest k)
  | fuel + 1, RE.alt a b, s, k =>
    reMatchK fuel a s k || reMatchK fuel b s k
  | fuel + 1, RE.star a, s, k =>
    k s || reMatchK fuel a s (fun rest =>
      if rest.length < s.length then reMatchK fuel (RE.star a) rest k else false)

/-- Structural size of a regular expression, used to pick a fuel. -/
def reSize : RE → Nat
  | RE.eps => 1
  | RE.cls _ => 1
  | RE.cat a b => reSize a + reSize b + 1
  | RE.alt a b => reSize a + reSize b + 1
  | RE.star a => reSize a + 1

/-- Anchored whole-string match (the two source regexes are `^...$`). -/
def reMatches (r : RE) (s : Str) : Bool :=
  reMatchK ((reSize r + s.length + 1) * 2) r s (fun rest => rest.isEmpty)

/-- `[0-9]`. -/
def clsDigit : RE := RE.cls (fun c => '0' ≤ c && c ≤ '9')

/-- `[0-9a-fA-F]`. -/
def clsHex : RE :=
  RE.cls (fun c =>
    ('0' ≤ c && c ≤ '9') || ('a' ≤ c && c ≤ 'f') || ('A' ≤ c && c ≤ 'F'))

/-- `[0-9a-zA-Z]`. -/
def clsAlnum : RE :=
  RE.cls (fun c =>
    ('0' ≤ c && c ≤ '9') || ('a' ≤ c && c ≤ 'z') || ('A' ≤ c && c ≤ 'Z'))

/-- `[01]`. -/
def clsZeroOne : RE := RE.cls (fun c => c == '0' || c == '1')

/-- One IPv4 octet as written in the `ipv4Regex` of `flagIP`:
`25[0-5]|2[0-4][0-9]|[01]?[0-9][0-9]?`. -/
def ipv4Octet : RE :=
  ralt
    [ rcat [rchar '2', rchar '5', RE.cls (fun c => '0' ≤ c && c ≤ '5')]
    , rcat [rchar '2', RE.cls (fun c => '0' ≤ c && c ≤ '4'), clsDigit]
    , rcat [RE.alt RE.eps clsZeroOne, clsDigit, RE.alt RE.eps clsDigit]
    ]

/-- The `ipv4Regex` of `flagIP` (src/main.mjs:131):
`^(octet\.){3}octet$`. -/
def ipv4RE : RE :=
  RE.cat (rrep 3 3 (RE.cat ipv4Octet (rchar '.'))) ipv4Octet

/-- `[0-9a-fA-F]{1,4}` (one hextet). -/
def hextet : RE := rrep 1 4 clsHex

/-- The trailing embedded-IPv4 part used inside the `ipv6Regex`:
`((25[0-5]|(2[0-4]|1{0,1}[0-9]){0,1}[0-9])\.){3,3}(25[0-5]|(2[0-4]|1{0,1}[0-9]){0,1}[0-9])`. -/
def ipv6EmbeddedOctet : RE :=
  RE.alt
    (rcat [rchar '2', rchar '5', RE.cls (fun c => '0' ≤ c && c ≤ '5')])
    (RE.cat
      (ropt 1 (RE.alt
        (rcat [rchar '2', RE.cls (fun c => '0' ≤ c && c ≤ '4')])
        (RE.cat (ropt 1 (rchar '1')) clsDigit)))
      clsDigit)

/-- The embedded dotted-quad in the `ipv6Regex`. -/
def ipv6EmbeddedV4 : RE :=
  RE.cat (rrep 3 3 (RE.cat ipv6EmbeddedOctet (rchar '.'))) ipv6EmbeddedOctet

/-- The `ipv6Regex` of `flagIP` (src/main.mjs:132), one alternative per
line, transliterated in source order. -/
def ipv6RE : RE :=
  ralt
    [ RE.cat (rrep 7 7 (RE.cat hextet (rchar ':'))) hextet
    , RE.cat (rrep 1 7 (RE.cat hextet (rchar ':'))) (rchar ':')
    , rcat [rrep 1 6 (RE.cat hextet (rchar ':')), rchar ':', hextet]
    , RE.cat (rrep 1 5 (RE.cat hextet (rchar ':')))
        (rrep 1 2 (RE.cat (rchar ':') hextet))
    , RE.cat (rrep 1 4 (RE.cat hextet (rchar ':')))
        (rrep 1 3 (RE.cat (rchar ':') hextet))
    , RE.cat (rrep 1 3 (RE.cat hextet (rchar ':')))
        (rrep 1 4 (RE.cat (rchar ':') hextet))
    , RE.cat (rrep 1 2 (RE.cat hextet (rchar ':')))
        (rrep 1 5 (RE.cat (rchar ':') hextet))
    , RE.cat hextet (rrep 1 6 (RE.cat (rchar ':') hextet))
    , RE.cat (rchar ':')
        (RE.alt (rrep 1 7 (RE.cat (rchar ':') hextet)) (rchar ':'))
    , rcat [rlit ("fe80".toList), rchar ':'
           , rrep 0 4 (RE.cat (rchar ':') (rrep 0 4 clsHex))
           , rchar '%', rplus clsAlnum]
    , rcat [rlit ("::".toList)
           , ropt 1 (rcat [rlit ("ffff".toList), ropt 1 (rrep 1 4 (rchar '0'))
                          , rchar ':'])
           , ipv6EmbeddedV4]
    , rcat [rrep 1 4 (RE.cat hextet (rchar ':')), rchar ':', ipv6EmbeddedV4]
    ]

/-- `flagIP` (src/main.mjs:125-140): guarded on `Source`, then the two
anchored regex tests. -/
def flagIP (row : Row) : Row :=
  if row.Source = some exclStr then
    row
  else if reMatches ipv4RE row.Domain || reMatches ipv6RE row.Domain then
    { row with Source := some exclStr
             , Comment := some ("IP address excluded".toList) }
  else
    row

/-- JavaScript truthiness of an optional string field: absent (or null)
and the empty string are falsy. -/
def strTruthy : Option Str → Bool
  | none => false
  | some s => !s.isEmpty

/-- The static pattern table of `flagCDN` (src/main.mjs:151-272), in
source order: suffix pattern paired with provider name. -/
def cdns : List (Str × Str) :=
  [ (".cdn.cloudflare.net".toList, "Cloudflare".toList)
  , (".edgekey.net".toList, "Akamai".toList)
  , (".edgesuite.net".toList, "Akamai".toList)
  , (".magentocloud.map.fastly.net".toList, "Adobe Commerce".toList)
  , (".fastly.net".toList, "Fastly".toList)
  , (".adobeaemcloud.com".toList, "AEM Cloud Service".toList)
  , (".cloudfront.net".toList, "Cloudfront".toList)
  , (".azurefd.net".toList, "Azure Front Door".toList)
  , (".azureedge.net".toList, "Azure Front Door".toList)
  , (".gammacdn.net".toList, "Edgio".toList)
  , (".abbottapps.net".toList, "Abbott Apps".toList)
  , (".cdngslb.com".toList, "Alibaba Cloud".toList)
  , (".induscdn.com".toList, "Indus CDN".toList)
  , (".impervadns.net".toList, "Imperva".toList)
  , (".rbzdns.com".toList, "Rackspace".toList)
  , (".kxcdn.com".toList, "KeyCDN".toList)
  , (".c10r.facebook.com".toList, "Facebook".toList)
  , (".radwarecloud.net".toList, "Radware Cloud".toList)
  , (".edgekey-staging.net".toList, "Akamai".toList)
  , (".azurewebsites.net".toList, "Azure Web Apps".toList)
  , (".x.incapdns.net".toList, "Incapsula".toList)
  , (".onelink-translations.com".toList, "OneLink".toList)
  , (".trafficmanager.net".toList, "Azure".toList)
  , (".trafficdirector.pfizer.net".toList, "Pfizer Traffic Director".toList)
  , (".wpengine.com".toList, "WP Engine".toList)
  , (".omicroncdn.net".toList, "Omicron CDN".toList)
  , (".vercel-dns.com".toList, "Vercel".toList)
  , (".nucdn.net".toList, "NuCDN".toList)
  , (".lighthouselabs.eu".toList, "Lighthouse Labs".toList)
  , (".github.io".toList, "GitHub Pages".toList)
  ]

/-- `cdns.find(cdn => value.endsWith(cdn.pattern))`, projected to the
provider name: the first table entry whose pattern is a suffix of the
CNAME value. -/
def findCDN (v : Str) : Option Str :=
  (cdns.find? (fun p => p.1.isSuffixOf v)).map (fun p => p.2)

/-- One step of the `reduce` in `flagCDN` (src/main.mjs:276-280): keep a
truthy accumulator, otherwise look this CNAME value up in the table
(a miss leaves the accumulator falsy, like the null the source produces). -/
def reduceStep (result : Option Str) (d : DNSRec) : Option Str :=
  if strTruthy result then result else findCDN d.value

/-- The whole `reduce` over the CNAME-filtered DNS records, starting from
an absent accumulator (the source starts from undefined). -/
def reduceCDN (l : List DNSRec) : Option Str :=
  l.foldl reduceStep none

/-- The string literal `CNAME`. -/
def cnameStr : Str := "CNAME".toList

/-- `headers[k]` on the header mapping captured from a response. -/
def headerGet (hs : List (Str × Str)) (k : Str) : Option Str :=
  (hs.find? (fun p => p.1 = k)).map (fun p => p.2)

/-- `flagCDN` (src/main.mjs:142-291).  Early returns for excluded records
and for records without a `DNS` field (neither deletes anything); then the
CNAME reduce, the cloudflare server-header fallback, and the
`DNS Error`/`Unknown CDN` taxonomy; finally `DNS` is deleted. -/
def flagCDN (row : Row) : Row :=
  if row.Source = some exclStr then
    row
  else
    match row.DNS with
    | none => row
    | some ds =>
      let cdn0 := reduceCDN (ds.filter (fun d => d.type = cnameStr))
      let r1 := { row with CDN := cdn0 }
      let r2 :=
        if !strTruthy r1.CDN
            && (match r1.HTTPHeaders with
                | some hs => headerGet hs ("server".toList) = some ("cloudflare".toList)
                | none => false) then
          { r1 with CDN := some ("Cloudflare".toList) }
        else
          r1
      let r3 :=
        if !strTruthy r2.CDN && r2.DNSError.isSome then
          { r2 with CDN := some ("DNS Error".toList) }
        else if !strTruthy r2.CDN
            && (ds.find? (fun d => d.type = cnameStr)).isSome then
          { r2 with CDN := some (("Unknown CDN ".toList)
              ++ (((ds.find? (fun d => d.type = cnameStr)).map
                    (fun d => d.value)).getD [])) }
        else
          r2
      { r3 with DNS := none }

/-- The outcome of the `fetch` call in `enrichHTTPS`, as an oracle: the
URL constructor may throw (outside the try block), the fetch itself may
reject, or a response arrives carrying status, headers, and the result of
reading its body text (which itself may fail mid-stream). -/
inductive FetchOutcome where
  | urlError (e : Str) : FetchOutcome
  | fetchError (e : Str) : FetchOutcome
  | response (status : Nat) (headers : List (Str × Str))
      (bodyText : Except Str Str) : FetchOutcome

/-- `row.HTTPHeaders['content-type']?.startsWith('text/html')`: false when
the header is absent. -/
def htmlContentType (hs : List (Str × Str)) : Bool :=
  match headerGet hs ("content-type".toList) with
  | some v => ("text/html".toList).isPrefixOf v
  | none => false

/-- `enrichHTTPS` (src/main.mjs:293-314).  Excluded records return before
the URL is built; a URL-constructor error is thrown out of the stage
(modelled as `Except.error`); a fetch rejection is caught as `HTTPError`;
otherwise status and headers are recorded and, for a 200 text/html
response, the body is read (a body-read failure is also caught as
`HTTPError`, after status and headers were already set). -/
def enrichHTTPS (outcome : FetchOutcome) (row : Row) : Except Str Row :=
  if row.Source = some exclStr then
    Except.ok row
  else
    match outcome with
    | FetchOutcome.urlError e => Except.error e
    | FetchOutcome.fetchError e => Except.ok { row with HTTPError := some e }
    | FetchOutcome.response st hs btext =>
      let r1 := { row with HTTPStatus := some st, HTTPHeaders := some hs }
      if st = 200 && htmlContentType hs then
        match btext with
        | Except.ok b => Except.ok { r1 with HTTPBody := some b }
        | Except.error e => Except.ok { r1 with HTTPError := some e }
      else
        Except.ok r1

/-- Is `c` matched by an unescaped `.` in a JavaScript regex without the
`s` flag: any character except a line terminator. -/
def dotAny (c : Char) : Bool :=
  !(c == '\n' || c == '\r' || c == '\u2028' || c == '\u2029')

/-- Lowercase-hex character class `[a-f0-9]` of the Helix fingerprint. -/
def isHexLC (c : Char) : Bool :=
  ('a' ≤ c && c ≤ 'f') || ('0' ≤ c && c ≤ '9')

/-- Consume a literal from the front of a string, returning the rest. -/
def litRun : Str → Str → Option Str
  | [], s => some s
  | _ :: _, [] => none
  | p :: pt, c :: ct => if p == c then litRun pt ct else none

/-- Consume exactly `n` lowercase-hex characters, returning the rest. -/
def hexRun : Nat → Str → Option Str
  | 0, s => some s
  | _ + 1, [] => none
  | n + 1, c :: t => if isHexLC c then hexRun n t else none

/-- Does the predicate hold at some position of the string (unanchored
regex search)? -/
def scanStr (p : Str → Bool) : Str → Bool
  | [] => p []
  | c :: t => p (c :: t) || scanStr p t

/-- `/\/media_[a-f0-9]{40}/` matching at the front of the string. -/
def helixHere (s : Str) : Bool :=
  match litRun ("/media_".toList) s with
  | some rest => (hexRun 40 rest).isSome
  | none => false

/-- The Helix body fingerprint of `enrichHTML` (src/main.mjs:326). -/
def matchesHelix (s : Str) : Bool := scanStr helixHere s

/-- `/\/etc.clientlibs\//` matching at the front of the string: the dot
is unescaped in the source, so it matches any non-line-terminator. -/
def aemHere (s : Str) : Bool :=
  match litRun ("/etc".toList) s with
  | some (c :: rest) => dotAny c && (litRun ("clientlibs/".toList) rest).isSome
  | _ => false

/-- The AEM body fingerprint of `enrichHTML` (src/main.mjs:330). -/
def matchesAEM (s : Str) : Bool := scanStr aemHere s

/-- `/\/\.rum\/@adobe\/helix-rum-js/` matching at the front. -/
def rumHere (s : Str) : Bool :=
  (litRun ("/.rum/@adobe/helix-rum-js".toList) s).isSome

/-- The RUM body fingerprint of `enrichHTML` (src/main.mjs:334). -/
def matchesRUM (s : Str) : Bool := scanStr rumHere s

/-- Literal substring containment, used to state that a body does not
contain a given literal path. -/
def containsLit (hay pat : Str) : Bool :=
  scanStr (fun s => (litRun pat s).isSome) hay

/-- JavaScript truthiness of `row.HTTPBody`: absent or empty is falsy. -/
def bodyFalsy (row : Row) : Bool :=
  match row.HTTPBody with
  | none => true
  | some s => s.isEmpty

/-- `enrichHTML` (src/main.mjs:316-340): excluded records pass through; a
falsy body means `Unverified`; otherwise Helix, AEM, RUM fingerprints in
that order (Helix and AEM delete body and headers), else `Other`. -/
def enrichHTML (row : Row) : Row :=
  if row.Source = some exclStr then
    row
  else if bodyFalsy row then
    { row with Source := some ("Unverified".toList) }
  else
    let b := row.HTTPBody.getD []
    if matchesHelix b then
      { row with Source := some ("Helix".toList)
               , HTTPBody := none, HTTPHeaders := none }
    else if matchesAEM b then
      { row with Source := some ("AEM".toList)
               , HTTPBody := none, HTTPHeaders := none }
    else if matchesRUM b then
      { row with Source := some ("RUM".toList) }
    else
      { row with Source := some ("Other".toList) }

/-- Is the `Parent` field falsy (absent, null, or the empty string)? -/
def parentFalsy (row : Row) : Bool :=
  match row.Parent with
  | none => true
  | some s => s.isEmpty

/-- The sort comparator (src/main.mjs:354-359) as a boolean order
(`compare l r <= 0`); the locale-aware string comparison
`localeCompare` is abstract and passed in as `le` (meaning
`l.Parent.localeCompare(r.Parent) <= 0`). -/
def rowLe (le : Str → Str → Bool) (l r : Row) : Bool :=
  if parentFalsy l then parentFalsy r
  else parentFalsy r || le (l.Parent.getD []) (r.Parent.getD [])

/-- The sort stage: order the record set with the comparator. -/
def sortRows (le : Str → Str → Bool) (rows : List Row) : List Row :=
  rows.mergeSort (rowLe le)

/-- The five synchronous per-record stages, in pipeline order
(src/main.mjs:347-351): cleanupTrailingDot, flagPorts, flagIP,
flagParent, flagDev. -/
def syncStages (pslF : Str → Option Str × Option Str) (row : Row) : Row :=
  flagDev (flagParent pslF (flagIP (flagPorts (cleanupTrailingDot row))))

/-- One record's full chain (src/main.mjs:346-365): the synchronous
stages followed by enrichDNS, enrichHTTPS, flagCDN, enrichHTML.  An
uncaught throw from enrichHTTPS aborts the whole join, so the result is
an `Except`. -/
def pipelineOne (pslF : Str → Option Str × Option Str)
    (dnsres : Except Str (List DNSRec)) (fout : FetchOutcome)
    (row : Row) : Except Str Row :=
  match enrichHTTPS fout (enrichDNS dnsres (syncStages pslF row)) with
  | Except.error e => Except.error e
  | Except.ok r => Except.ok (enrichHTML (flagCDN r))

/-!  Field-tracking lemmas: which fields each stage can touch. -/

theorem cleanupTrailingDot_pres (row : Row) :
    (cleanupTrailingDot row).Source = row.Source
    ∧ (cleanupTrailingDot row).Comment = row.Comment
    ∧ (cleanupTrailingDot row).Parent = row.Parent
    ∧ (cleanupTrailingDot row).TLD = row.TLD
    ∧ (cleanupTrailingDot row).DNS = row.DNS
    ∧ (cleanupTrailingDot row).DNSError = row.DNSError
    ∧ (cleanupTrailingDot row).HTTPStatus = row.HTTPStatus
    ∧ (cleanupTrailingDot row).HTTPHeaders = row.HTTPHeaders
    ∧ (cleanupTrailingDot row).HTTPBody = row.HTTPBody
    ∧ (cleanupTrailingDot row).HTTPError = row.HTTPError
    ∧ (cleanupTrailingDot row).CDN = row.CDN := by
  unfold cleanupTrailingDot
  split <;> simp

theorem portCheck_pres (row : Row) :
    (portCheck row).Domain = row.Domain
    ∧ (portCheck row).Parent = row.Parent
    ∧ (portCheck row).TLD = row.TLD
    ∧ (portCheck row).DNS = row.DNS
    ∧ (portCheck row).DNSError = row.DNSError
    ∧ (portCheck row).HTTPStatus = row.HTTPStatus
    ∧ (portCheck row).HTTPHeaders = row.HTTPHeaders
    ∧ (portCheck row).HTTPBody = row.HTTPBody
    ∧ (portCheck row).HTTPError = row.HTTPError
    ∧ (portCheck row).CDN = row.CDN := by
  unfold portCheck
  split <;> simp

theorem portCheck_source (row : Row) :
    (portCheck row).Source = row.Source ∨ (portCheck row).Source = some exclStr := by
  unfold portCheck
  split <;> simp

theorem pathCheck_pres (row : Row) :
    (pathCheck row).Source = row.Source
    ∧ (pathCheck row).Parent = row.Parent
    ∧ (pathCheck row).TLD = row.TLD
    ∧ (pathCheck row).DNS = row.DNS
    ∧ (pathCheck row).DNSError = row.DNSError
    ∧ (pathCheck row).HTTPStatus = row.HTTPStatus
    ∧ (pathCheck row).HTTPHeaders = row.HTTPHeaders
    ∧ (pathCheck row).HTTPBody = row.HTTPBody
    ∧ (pathCheck row).HTTPError = row.HTTPError
    ∧ (pathCheck row).CDN = row.CDN := by
  unfold pathCheck
  split <;> simp

theorem flagIP_pres (row : Row) :
    (flagIP row).Domain = row.Domain
    ∧ (flagIP row).Parent = row.Parent
    ∧ (flagIP row).TLD = row.TLD
    ∧ (flagIP row).DNS = row.DNS
    ∧ (flagIP row).DNSError = row.DNSError
    ∧ (flagIP row).HTTPStatus = row.HTTPStatus
    ∧ (flagIP row).HTTPHeaders = row.HTTPHeaders
    ∧ (flagIP row).HTTPBody = row.HTTPBody
    ∧ (flagIP row).HTTPError = row.HTTPError
    ∧ (flagIP row).CDN = row.CDN := by
  unfold flagIP
  split <;> [simp; split <;> simp]

theorem flagIP_source (row : Row) :
    (flagIP row).Source = row.Source ∨ (flagIP row).Source = some exclStr := by
  unfold flagIP
  split <;> [simp; split <;> simp]

theorem flagIP_excl (row : Row) (h : row.Source = some exclStr) :
    flagIP row = row := by
  unfold flagIP
  rw [if_pos h]

theorem flagParent_pres (pslF : Str → Option Str × Option Str) (row : Row) :
    (flagParent pslF row).Source = row.Source
    ∧ (flagParent pslF row).Comment = row.Comment
    ∧ (flagParent pslF row).Domain = row.Domain
    ∧ (flagParent pslF row).DNS = row.DNS
    ∧ (flagParent pslF row).DNSError = row.DNSError
    ∧ (flagParent pslF row).HTTPStatus = row.HTTPStatus
    ∧ (flagParent pslF row).HTTPHeaders = row.HTTPHeaders
    ∧ (flagParent pslF row).HTTPBody = row.HTTPBody
    ∧ (flagParent pslF row).HTTPError = row.HTTPError
    ∧ (flagParent pslF row).CDN = row.CDN := by
  unfold flagParent
  split <;> simp

theorem flagParent_excl (pslF : Str → Option Str × Option Str) (row : Row)
    (h : row.Source = some exclStr) : flagParent pslF row = row := by
  unfold flagParent
  rw [if_pos h]

theorem flagDev_pres (row : Row) :
    (flagDev row).Domain = row.Domain
    ∧ (flagDev row).Parent = row.Parent
    ∧ (flagDev row).TLD = row.TLD
    ∧ (flagDev row).DNS = row.DNS
    ∧ (flagDev row).DNSError = row.DNSError
    ∧ (flagDev row).HTTPStatus = row.HTTPStatus
    ∧ (flagDev row).HTTPHeaders = row.HTTPHeaders
    ∧ (flagDev row).HTTPBody = row.HTTPBody
    ∧ (flagDev row).HTTPError = row.HTTPError
    ∧ (flagDev row).CDN = row.CDN := by
  unfold flagDev
  split <;> simp

theorem flagDev_source (row : Row) :
    (flagDev row).Source = row.Source ∨ (flagDev row).Source = some exclStr := by
  unfold flagDev
  split <;> simp

theorem flagDev_fixed (row : Row) (hp : row.Parent = none) (ht : row.TLD = none) :
    flagDev row = row := by
  unfold flagDev
  rw [hp, ht]
  simp [optIncludes]

theorem enrichDNS_pres (res : Except Str (List DNSRec)) (row : Row) :
    (enrichDNS res row).Source = row.Source
    ∧ (enrichDNS res row).Comment = row.Comment
    ∧ (enrichDNS res row).Domain = row.Domain
    ∧ (enrichDNS res row).Parent = row.Parent
    ∧ (enrichDNS res row).TLD = row.TLD
    ∧ (enrichDNS res row).HTTPStatus = row.HTTPStatus
    ∧ (enrichDNS res row).HTTPHeaders = row.HTTPHeaders
    ∧ (enrichDNS res row).HTTPBody = row.HTTPBody
    ∧ (enrichDNS res row).HTTPError = row.HTTPError
    ∧ (enrichDNS res row).CDN = row.CDN := by
  unfold enrichDNS
  split
  · simp
  · cases res <;> simp

theorem enrichDNS_excl (res : Except Str (List DNSRec)) (row : Row)
    (h : row.Source = some exclStr) : enrichDNS res row = row := by
  unfold enrichDNS
  rw [if_pos h]

theorem enrichHTTPS_excl (fout : FetchOutcome) (row : Row)
    (h : row.Source = some exclStr) : enrichHTTPS fout row = Except.ok row := by
  unfold enrichHTTPS
  rw [if_pos h]

theorem enrichHTTPS_ok_pres (fout : FetchOutcome) (row r : Row)
    (h : enrichHTTPS fout row = Except.ok r) :
    r.Source = row.Source ∧ r.Comment = row.Comment ∧ r.Domain = row.Domain
    ∧ r.Parent = row.Parent ∧ r.TLD = row.TLD ∧ r.DNS = row.DNS
    ∧ r.DNSError = row.DNSError ∧ r.CDN = row.CDN := by
  unfold enrichHTTPS at h
  split at h
  · rw [Except.ok.injEq] at h; subst h; simp
  · split at h
    · exact Except.noConfusion h
    · rw [Except.ok.injEq] at h; subst h; simp
    · split at h
      · split at h
        · rw [Except.ok.injEq] at h; subst h; simp
        · rw [Except.ok.injEq] at h; subst h; simp
      · rw [Except.ok.injEq] at h; subst h; simp

theorem flagCDN_excl (row : Row) (h : row.Source = some exclStr) :
    flagCDN row = row := by
  unfold flagCDN
  rw [if_pos h]

theorem flagCDN_pres (row : Row) :
    (flagCDN row).Source = row.Source
    ∧ (flagCDN row).Comment = row.Comment
    ∧ (flagCDN row).Domain = row.Domain
    ∧ (flagCDN row).Parent = row.Parent
    ∧ (flagCDN row).TLD = row.TLD
    ∧ (flagCDN row).DNSError = row.DNSError
    ∧ (flagCDN row).HTTPStatus = row.HTTPStatus
    ∧ (flagCDN row).HTTPHeaders = row.HTTPHeaders
    ∧ (flagCDN row).HTTPBody = row.HTTPBody
    ∧ (flagCDN row).HTTPError = row.HTTPError := by
  unfold flagCDN
  split
  · simp
  · split
    · simp
    · dsimp only
      repeat' split
      all_goals simp

theorem flagCDN_DNS_none (row : Row) (h : row.Source ≠ some exclStr) :
    (flagCDN row).DNS = none := by
  unfold flagCDN
  rw [if_neg h]
  split
  · assumption
  · dsimp only

theorem enrichHTML_excl (row : Row) (h : row.Source = some exclStr) :
    enrichHTML row = row := by
  unfold enrichHTML
  rw [if_pos h]

theorem enrichHTML_pres (row : Row) :
    (enrichHTML row).Domain = row.Domain
    ∧ (enrichHTML row).Comment = row.Comment
    ∧ (enrichHTML row).Parent = row.Parent
    ∧ (enrichHTML row).TLD = row.TLD
    ∧ (enrichHTML row).DNS = row.DNS
    ∧ (enrichHTML row).DNSError = row.DNSError
    ∧ (enrichHTML row).HTTPStatus = row.HTTPStatus
    ∧ (enrichHTML row).HTTPError = row.HTTPError
    ∧ (enrichHTML row).CDN = row.CDN := by
  unfold enrichHTML
  split
  · simp
  · split
    · simp
    · dsimp only
      repeat' split
      all_goals simp

deriving instance DecidableEq for Except

/-- A public-suffix oracle that resolves nothing. -/
def pslNone : Str → Option Str × Option Str := fun _ => (none, none)

/-- A record whose DNS resolution failed: `DNSError` set, `DNS` absent. -/
def rowC1 : Row :=
  { mkRow ("nonexistent.example".toList) with DNSError := some ("ENOTFOUND".toList) }

/-- The final record the pipeline produces for `rowC1`-style input. -/
def c1row : Row :=
  { Domain := "nonexistent.example".toList
  , Source := some ("Unverified".toList)
  , DNSError := some ("ENOTFOUND".toList)
  , HTTPError := some ("ENOTFOUND".toList) }

/-- Claim C1: the spec says a record whose DNS resolution failed (DNSError
set, DNS absent), with no matching CNAME and no cloudflare server header,
gets CDN = "DNS Error".  Evaluating the code at exactly such a failing
input shows the early return on the absent `DNS` field (src/main.mjs
148-150) fires first, so the DNSError branch (src/main.mjs 284-285) is
never reached and `CDN` is left unset, both for `flagCDN` alone and for
the full per-record pipeline. -/
theorem c1_dns_error_cdn_left_unset :
    rowC1.DNSError.isSome = true ∧ rowC1.DNS = none ∧ rowC1.HTTPHeaders = none
    ∧ flagCDN rowC1 = rowC1
    ∧ pipelineOne pslNone (Except.error ("ENOTFOUND".toList))
        (FetchOutcome.fetchError ("ENOTFOUND".toList))
        (mkRow ("nonexistent.example".toList)) = Except.ok c1row
    ∧ c1row.CDN = none := by decide

/-- A public-suffix oracle for the concrete RUM-site run. -/
def pslRum : Str → Option Str × Option Str :=
  fun _ => (some ("rum-site.example".toList), some ("example".toList))

/-- A body containing the RUM fingerprint. -/
def rumBody : Str := "/.rum/@adobe/helix-rum-js".toList

/-- A 200 text/html response whose body is the RUM fingerprint. -/
def foutRum : FetchOutcome :=
  FetchOutcome.response 200 [("content-type".toList, "text/html".toList)] (Except.ok rumBody)

/-- The final record of the RUM run: body retained. -/
def c2row : Row :=
  { Domain := "rum-site.example".toList
  , Source := some ("RUM".toList)
  , Parent := some ("rum-site.example".toList)
  , TLD := some ("example".toList)
  , HTTPStatus := some 200
  , HTTPHeaders := some [("content-type".toList, "text/html".toList)]
  , HTTPBody := some rumBody }

/-- Claim C2 counterexample: a record classified RUM reaches final output
with `HTTPBody` still present, refuting that HTTPBody is always removed
before serialization regardless of the Source classification. -/
theorem c2_counterexample :
    pipelineOne pslRum (Except.ok []) foutRum (mkRow ("rum-site.example".toList))
      = Except.ok c2row
    ∧ c2row.HTTPBody = some rumBody
    ∧ some rumBody ≠ (none : Option Str) := by decide

/-- A domain carrying both a port and a path. -/
def rowC3 : Row := mkRow ("example.com:443/path".toList)

/-- Claim C3 counterexample: on a domain with both a colon and a slash the
record ends `flagPorts` with the path-removal comment, not the
port-exclusion comment, because the slash check runs second and
overwrites `Comment`. -/
theorem c3_counterexample :
    (flagPorts rowC3).Source = some exclStr
    ∧ (flagPorts rowC3).Comment = some pathComment
    ∧ some pathComment ≠ some portsComment := by decide

/-- A 200 text/html response whose body read fails mid-stream. -/
def foutBodyFail : FetchOutcome :=
  FetchOutcome.response 200 [("content-type".toList, "text/html".toList)]
    (Except.error ("ECONNRESET".toList))

/-- Claim C4 counterexample: when the failure happens while reading the
body of a 200 text/html response, `HTTPError` is captured but
`HTTPStatus` and `HTTPHeaders` had already been set and remain present,
refuting that all three fields are absent whenever HTTPError is set. -/
theorem c4_counterexample :
    enrichHTTPS foutBodyFail (mkRow ("rum-site.example".toList))
      = Except.ok { Domain := "rum-site.example".toList
                  , HTTPStatus := some 200
                  , HTTPHeaders := some [("content-type".toList, "text/html".toList)]
                  , HTTPError := some ("ECONNRESET".toList) } := by decide

/-- The normalizer stage of the claims: trailing-dot strip followed by
the port and path checks. -/
def normRow (row : Row) : Row := flagPorts (cleanupTrailingDot row)

/-- Claim C5 counterexample: normalization is not idempotent.  A domain
ending in two dots loses one more dot on a second pass, and a domain with
both a colon and a slash has its comment rewritten from the path comment
back to the port comment on a second pass. -/
theorem c5_counterexample :
    normRow (normRow (mkRow ("example.com..".toList))) ≠ normRow (mkRow ("example.com..".toList))
    ∧ (normRow (mkRow ("example.com..".toList))).Domain = "example.com.".toList
    ∧ (normRow (normRow (mkRow ("example.com..".toList)))).Domain = "example.com".toList
    ∧ normRow (normRow (mkRow ("a:b/c".toList))) ≠ normRow (mkRow ("a:b/c".toList))
    ∧ (normRow (mkRow ("a:b/c".toList))).Comment = some pathComment
    ∧ (normRow (normRow (mkRow ("a:b/c".toList)))).Comment = some portsComment := by decide

/-- A record with a present but empty HTTP body. -/
def rowC7 : Row := { mkRow ("site.example".toList) with HTTPBody := some [] }

/-- Claim C7 counterexample: a present-but-empty body is falsy in
JavaScript, so the classifier sets `Unverified` instead of testing the
fingerprints and producing `Other` as the claim would require for a
present body matching nothing. -/
theorem c7_counterexample :
    rowC7.HTTPBody ≠ none
    ∧ (enrichHTML rowC7).Source = some ("Unverified".toList)
    ∧ (enrichHTML rowC7).Source ≠ some ("Other".toList) := by decide

/-- An input record carrying a Parent column value (the CSV reader turns
any input column into a record field, src/main.mjs 28-31) whose domain
carries a port. -/
def rowC8 : Row := { mkRow ("foo.com:1".toList) with Parent := some ("fastly.net".toList) }

/-- Claim C8 counterexample: `flagPorts` excludes the record (port) and
sets the port comment, yet the later `flagDev` stage — which has no
`Source` guard in the source — still evaluates its check against the
input-supplied Parent and rewrites `Comment`, mutating an
already-excluded record. -/
theorem c8_counterexample :
    (flagIP (flagPorts (cleanupTrailingDot rowC8))).Source = some exclStr
    ∧ (flagIP (flagPorts (cleanupTrailingDot rowC8))).Comment = some portsComment
    ∧ (syncStages pslNone rowC8).Comment = some ("Development domain excluded".toList)
    ∧ some ("Development domain excluded".toList) ≠ some portsComment := by decide

/-- An HTTP body containing `/etcXclientlibs/` but not the literal
`/etc.clientlibs/`. -/
def aemBody : Str := "/etcXclientlibs/".toList

/-- Claim C10: there is a body that does not contain the literal path
`/etc.clientlibs/` yet is classified `AEM`, because the unescaped dot in
the AEM fingerprint matches any (non line terminator) character. -/
theorem c10_aem_dot_matches_any :
    containsLit aemBody ("/etc.clientlibs/".toList) = false
    ∧ (enrichHTML { mkRow ("site2.example".toList) with HTTPBody := some aemBody }).Source
        = some ("AEM".toList) := by decide

/-!  Mid-level characterizations used by several claims. -/

theorem enrichHTML_falsy (row : Row) (hsrc : row.Source ≠ some exclStr)
    (hb : bodyFalsy row = true) :
    enrichHTML row = { row with Source := some ("Unverified".toList) } := by
  unfold enrichHTML
  rw [if_neg hsrc, if_pos hb]

theorem enrichHTML_body_cases (row : Row) (hsrc : row.Source ≠ some exclStr)
    (b : Str) (hb : row.HTTPBody = some b) (hne : b ≠ []) :
    enrichHTML row =
      if matchesHelix b then
        { row with Source := some ("Helix".toList), HTTPBody := none, HTTPHeaders := none }
      else if matchesAEM b then
        { row with Source := some ("AEM".toList), HTTPBody := none, HTTPHeaders := none }
      else if matchesRUM b then
        { row with Source := some ("RUM".toList) }
      else
        { row with Source := some ("Other".toList) } := by
  unfold enrichHTML
  rw [if_neg hsrc]
  have hbf : ¬(bodyFalsy row = true) := by
    simp [bodyFalsy, hb, hne]
  rw [if_neg hbf]
  dsimp only
  rw [hb]
  simp

/-- The seven network-derived fields agree between two records. -/
def netFields (a b : Row) : Prop :=
  a.DNS = b.DNS ∧ a.DNSError = b.DNSError ∧ a.HTTPStatus = b.HTTPStatus
  ∧ a.HTTPHeaders = b.HTTPHeaders ∧ a.HTTPBody = b.HTTPBody
  ∧ a.HTTPError = b.HTTPError ∧ a.CDN = b.CDN

theorem netFields_trans (a b c : Row) (h1 : netFields a b) (h2 : netFields b c) :
    netFields a c := by
  unfold netFields at h1 h2 ⊢
  obtain ⟨x1, x2, x3, x4, x5, x6, x7⟩ := h1
  obtain ⟨y1, y2, y3, y4, y5, y6, y7⟩ := h2
  exact ⟨x1.trans y1, x2.trans y2, x3.trans y3, x4.trans y4,
    x5.trans y5, x6.trans y6, x7.trans y7⟩

theorem cleanup_net (row : Row) : netFields (cleanupTrailingDot row) row := by
  unfold netFields cleanupTrailingDot
  split <;> simp

theorem portCheck_net (row : Row) : netFields (portCheck row) row := by
  unfold netFields portCheck
  split <;> simp

theorem pathCheck_net (row : Row) : netFields (pathCheck row) row := by
  unfold netFields pathCheck
  split <;> simp

theorem flagIP_net (row : Row) : netFields (flagIP row) row := by
  unfold netFields flagIP
  split
  · simp
  · split <;> simp

theorem flagParent_net (pslF : Str → Option Str × Option Str) (row : Row) :
    netFields (flagParent pslF row) row := by
  unfold netFields flagParent
  split <;> simp

theorem flagDev_net (row : Row) : netFields (flagDev row) row := by
  unfold netFields flagDev
  split <;> simp

theorem syncStages_net (pslF : Str → Option Str × Option Str) (row : Row) :
    netFields (syncStages pslF row) row := by
  unfold syncStages flagPorts
  exact netFields_trans _ _ _ (flagDev_net _)
    (netFields_trans _ _ _ (flagParent_net pslF _)
      (netFields_trans _ _ _ (flagIP_net _)
        (netFields_trans _ _ _ (pathCheck_net _)
          (netFields_trans _ _ _ (portCheck_net _) (cleanup_net row)))))

theorem srcR_trans {x y z : Option Str} (h1 : x = y ∨ x = some exclStr)
    (h2 : y = z ∨ y = some exclStr) : x = z ∨ x = some exclStr := by
  rcases h1 with h1 | h1
  · rw [h1]; exact h2
  · right; exact h1

theorem syncStages_source (pslF : Str → Option Str × Option Str) (row : Row) :
    (syncStages pslF row).Source = row.Source
    ∨ (syncStages pslF row).Source = some exclStr := by
  unfold syncStages flagPorts
  have s1 : (cleanupTrailingDot row).Source = row.Source ∨
      (cleanupTrailingDot row).Source = some exclStr :=
    Or.inl (cleanupTrailingDot_pres row).1
  have s2 := srcR_trans (portCheck_source (cleanupTrailingDot row)) s1
  have s3 := srcR_trans
    (Or.inl (pathCheck_pres (portCheck (cleanupTrailingDot row))).1 :
      (pathCheck (portCheck (cleanupTrailingDot row))).Source
        = (portCheck (cleanupTrailingDot row)).Source
      ∨ (pathCheck (portCheck (cleanupTrailingDot row))).Source = some exclStr) s2
  have s4 := srcR_trans (flagIP_source (pathCheck (portCheck (cleanupTrailingDot row)))) s3
  have s5 := srcR_trans
    (Or.inl (flagParent_pres pslF (flagIP (pathCheck (portCheck (cleanupTrailingDot row))))).1 :
      (flagParent pslF (flagIP (pathCheck (portCheck (cleanupTrailingDot row))))).Source
        = (flagIP (pathCheck (portCheck (cleanupTrailingDot row)))).Source
      ∨ (flagParent pslF (flagIP (pathCheck (portCheck (cleanupTrailingDot row))))).Source
          = some exclStr) s4
  exact srcR_trans
    (flagDev_source (flagParent pslF (flagIP (pathCheck (portCheck (cleanupTrailingDot row)))))) s5

theorem sync_head_parent_none (d : Str) :
    (flagIP (flagPorts (cleanupTrailingDot (mkRow d)))).Parent = none
    ∧ (flagIP (flagPorts (cleanupTrailingDot (mkRow d)))).TLD = none := by
  unfold flagPorts
  obtain ⟨-, -, hp1, ht1, -, -, -, -, -, -, -⟩ := cleanupTrailingDot_pres (mkRow d)
  obtain ⟨-, hp2, ht2, -, -, -, -, -, -, -⟩ := portCheck_pres (cleanupTrailingDot (mkRow d))
  obtain ⟨-, hp3, ht3, -, -, -, -, -, -, -⟩ :=
    pathCheck_pres (portCheck (cleanupTrailingDot (mkRow d)))
  obtain ⟨-, hp4, ht4, -, -, -, -, -, -, -⟩ :=
    flagIP_pres (pathCheck (portCheck (cleanupTrailingDot (mkRow d))))
  constructor
  · rw [hp4, hp3, hp2, hp1]; rfl
  · rw [ht4, ht3, ht2, ht1]; rfl

/-- Claim C3 as amended: on a domain containing both a colon and a slash,
the record ends the normalizer with Source = Excluded (set by the port
check, which runs first), but with the path-removal comment, because the
slash check runs second and overwrites `Comment`. -/
theorem c3_amended (row : Row) (hc : containsChar row.Domain ':' = true)
    (hs : containsChar row.Domain '/' = true) :
    (flagPorts row).Source = some exclStr ∧ (flagPorts row).Comment = some pathComment := by
  unfold flagPorts portCheck pathCheck
  rw [if_pos hc]
  have hs2 : containsChar
      ({ row with Source := some exclStr, Comment := some portsComment } : Row).Domain '/'
        = true := hs
  rw [if_pos hs2]
  exact ⟨rfl, rfl⟩

/-- Witness for C3 at a concrete domain with both a port and a path. -/
theorem c3_witness :
    (flagPorts (mkRow ("cdn.example.com:443/x".toList))).Source = some exclStr
    ∧ (flagPorts (mkRow ("cdn.example.com:443/x".toList))).Comment = some pathComment :=
  c3_amended (mkRow ("cdn.example.com:443/x".toList)) (by decide) (by decide)

/-- Claim C4 as amended: a fetch rejection leaves HTTPStatus, HTTPHeaders
and HTTPBody absent with HTTPError set; a failure while reading the body
of a 200 text/html response sets HTTPError with HTTPStatus and
HTTPHeaders already present (HTTPBody still absent).  In both cases the
failure is captured as data in the returned record. -/
theorem c4_amended (row : Row) (hsrc : row.Source ≠ some exclStr)
    (h1 : row.HTTPStatus = none) (h2 : row.HTTPHeaders = none) (h3 : row.HTTPBody = none) :
    (∀ e, ∃ r, enrichHTTPS (FetchOutcome.fetchError e) row = Except.ok r
      ∧ r.HTTPError = some e ∧ r.HTTPStatus = none ∧ r.HTTPHeaders = none ∧ r.HTTPBody = none)
    ∧ (∀ st hs e, st = 200 → htmlContentType hs = true →
      ∃ r, enrichHTTPS (FetchOutcome.response st hs (Except.error e)) row = Except.ok r
        ∧ r.HTTPError = some e ∧ r.HTTPStatus = some st ∧ r.HTTPHeaders = some hs
        ∧ r.HTTPBody = none) := by
  constructor
  · intro e
    refine ⟨{ row with HTTPError := some e }, ?_, rfl, h1, h2, h3⟩
    unfold enrichHTTPS
    rw [if_neg hsrc]
  · intro st hs e hst hhtml
    refine ⟨{ row with HTTPStatus := some st, HTTPHeaders := some hs, HTTPError := some e },
      ?_, rfl, rfl, rfl, h3⟩
    unfold enrichHTTPS
    rw [if_neg hsrc]
    dsimp only
    rw [if_pos (by simp [hst, hhtml])]

/-- Witness for C4 at a concrete fetch rejection. -/
theorem c4_witness :
    (enrichHTTPS (FetchOutcome.fetchError ("ECONNREFUSED".toList))
        (mkRow ("w4.example".toList))).toOption.map (fun r => r.HTTPError)
      = some (some ("ECONNREFUSED".toList)) := by
  obtain ⟨r, hok, he, -, -, -⟩ :=
    (c4_amended (mkRow ("w4.example".toList)) (by decide) rfl rfl rfl).1 ("ECONNREFUSED".toList)
  rw [hok]
  show some r.HTTPError = some (some ("ECONNREFUSED".toList))
  rw [he]

/-- Claim C7 as amended: for a non-excluded record, an absent OR EMPTY
body yields Unverified (JavaScript truthiness); for a present non-empty
body the Helix, AEM and RUM fingerprints are tested in that order with
first match winning, Helix and AEM delete body and headers, and Other is
assigned when none match (body retained for RUM and Other). -/
theorem c7_amended (row : Row) (hsrc : row.Source ≠ some exclStr) :
    ((row.HTTPBody = none ∨ row.HTTPBody = some []) →
        (enrichHTML row).Source = some ("Unverified".toList))
    ∧ (∀ b, row.HTTPBody = some b → b ≠ [] → matchesHelix b = true →
        (enrichHTML row).Source = some ("Helix".toList)
        ∧ (enrichHTML row).HTTPBody = none ∧ (enrichHTML row).HTTPHeaders = none)
    ∧ (∀ b, row.HTTPBody = some b → b ≠ [] → matchesHelix b = false → matchesAEM b = true →
        (enrichHTML row).Source = some ("AEM".toList)
        ∧ (enrichHTML row).HTTPBody = none ∧ (enrichHTML row).HTTPHeaders = none)
    ∧ (∀ b, row.HTTPBody = some b → b ≠ [] → matchesHelix b = false → matchesAEM b = false →
        matchesRUM b = true →
        (enrichHTML row).Source = some ("RUM".toList) ∧ (enrichHTML row).HTTPBody = some b)
    ∧ (∀ b, row.HTTPBody = some b → b ≠ [] → matchesHelix b = false → matchesAEM b = false →
        matchesRUM b = false →
        (enrichHTML row).Source = some ("Other".toList) ∧ (enrichHTML row).HTTPBody = some b) := by
  refine ⟨?_, ?_, ?_, ?_, ?_⟩
  · intro h
    have hb : bodyFalsy row = true := by
      rcases h with h | h <;> simp [bodyFalsy, h]
    rw [enrichHTML_falsy row hsrc hb]
  · intro b hb hne hH
    rw [enrichHTML_body_cases row hsrc b hb hne, if_pos hH]
    exact ⟨rfl, rfl, rfl⟩
  · intro b hb hne hH hA
    rw [enrichHTML_body_cases row hsrc b hb hne, if_neg (by simp [hH]), if_pos hA]
    exact ⟨rfl, rfl, rfl⟩
  · intro b hb hne hH hA hR
    rw [enrichHTML_body_cases row hsrc b hb hne, if_neg (by simp [hH]),
      if_neg (by simp [hA]), if_pos hR]
    exact ⟨rfl, hb⟩
  · intro b hb hne hH hA hR
    rw [enrichHTML_body_cases row hsrc b hb hne, if_neg (by simp [hH]),
      if_neg (by simp [hA]), if_neg (by simp [hR])]
    exact ⟨rfl, hb⟩

/-- A body containing both the Helix media-hash path and the AEM
clientlibs path. -/
def bothBody : Str :=
  "/media_0123456789abcdef0123456789abcdef01234567 /etc.clientlibs/".toList

/-- A record carrying `bothBody`. -/
def rowBoth : Row :=
  { mkRow ("both.example".toList) with HTTPBody := some bothBody, HTTPHeaders := some [] }

/-- Witness for C7: a body matching both the Helix and AEM fingerprints is
classified Helix (first match wins) with body and headers deleted. -/
theorem c7_witness :
    (enrichHTML rowBoth).Source = some ("Helix".toList)
    ∧ (enrichHTML rowBoth).HTTPBody = none ∧ (enrichHTML rowBoth).HTTPHeaders = none
    ∧ matchesHelix bothBody = true ∧ matchesAEM bothBody = true :=
  have h := ((c7_amended rowBoth (by decide)).2.1) bothBody rfl (by decide) (by decide)
  ⟨h.1, h.2.1, h.2.2, by decide, by decide⟩

/-- Claim C8 as amended: on an already-excluded record every later stage
except `flagDev` is guarded and leaves the record unchanged (and
`enrichHTTPS` returns it without contacting the network); `flagDev` runs
its check unconditionally but leaves the record unchanged whenever
`Parent` and `TLD` are absent — which holds for every record excluded
before suffix resolution when the input supplies only a Domain column,
since the head of the pipeline never populates Parent or TLD. -/
theorem c8_amended (pslF : Str → Option Str × Option Str)
    (dnsres : Except Str (List DNSRec)) (fout : FetchOutcome)
    (row : Row) (h : row.Source = some exclStr) :
    flagIP row = row ∧ flagParent pslF row = row
    ∧ (row.Parent = none → row.TLD = none → flagDev row = row)
    ∧ enrichDNS dnsres row = row
    ∧ enrichHTTPS fout row = Except.ok row
    ∧ flagCDN row = row ∧ enrichHTML row = row
    ∧ (∀ d : Str, (flagIP (flagPorts (cleanupTrailingDot (mkRow d)))).Parent = none
        ∧ (flagIP (flagPorts (cleanupTrailingDot (mkRow d)))).TLD = none) :=
  ⟨flagIP_excl row h, flagParent_excl pslF row h,
   fun hp ht => flagDev_fixed row hp ht,
   enrichDNS_excl dnsres row h, enrichHTTPS_excl fout row h,
   flagCDN_excl row h, enrichHTML_excl row h,
   fun d => sync_head_parent_none d⟩

/-- An already-excluded record used to witness C8. -/
def rowC8w : Row := { mkRow ("excluded.example".toList) with Source := some exclStr }

/-- Witness for C8 at a concrete excluded record. -/
theorem c8_witness :
    flagIP rowC8w = rowC8w ∧ flagCDN rowC8w = rowC8w ∧ enrichHTML rowC8w = rowC8w
    ∧ (flagIP (flagPorts (cleanupTrailingDot (mkRow ("foo.com:1".toList))))).Parent = none := by
  obtain ⟨h1, h2, h3, h4, h5, h6, h7, h8⟩ :=
    c8_amended pslNone (Except.ok []) (FetchOutcome.fetchError ("e".toList)) rowC8w (by decide)
  exact ⟨h1, h6, h7, (h8 ("foo.com:1".toList)).1⟩

/-!  The CDN table reduce: first matching CNAME wins. -/

theorem cdns_vals_ne_nil : ∀ p ∈ cdns, p.2 ≠ [] := by decide

theorem findCDN_ne_nil (v : Str) (s : Str) (h : findCDN v = some s) : s ≠ [] := by
  unfold findCDN at h
  rcases hf : cdns.find? (fun p => p.1.isSuffixOf v) with - | p
  · rw [hf] at h; simp at h
  · rw [hf] at h
    simp at h
    have hmem := List.mem_of_find?_eq_some hf
    have hne := cdns_vals_ne_nil p hmem
    rw [← h]
    exact hne

theorem reduce_foldl_stays (l : List DNSRec) (a : Option Str) (h : strTruthy a = true) :
    l.foldl reduceStep a = a := by
  induction l with
  | nil => rfl
  | cons r t ih =>
    rw [List.foldl_cons]
    have hstep : reduceStep a r = a := by unfold reduceStep; rw [if_pos h]
    rw [hstep, ih]

theorem reduceCDN_eq_find (l : List DNSRec) :
    reduceCDN l
      = ((l.find? (fun r => (findCDN r.value).isSome)).bind (fun r => findCDN r.value)) := by
  induction l with
  | nil => rfl
  | cons r t ih =>
    unfold reduceCDN at ih ⊢
    rw [List.foldl_cons]
    have h0 : reduceStep none r = findCDN r.value := by
      unfold reduceStep
      rw [if_neg]
      simp [strTruthy]
    rw [h0]
    rcases hf : findCDN r.value with - | s
    · rw [List.find?_cons_of_neg]
      · exact ih
      · simp [hf]
    · have hT : strTruthy (some s) = true := by
        have hne := findCDN_ne_nil r.value s hf
        simp [strTruthy, List.isEmpty_iff, hne]
      rw [reduce_foldl_stays t (some s) hT]
      rw [List.find?_cons_of_pos]
      · simp [hf]
      · simp [hf]

theorem flagCDN_match (row : Row) (ds : List DNSRec) (r0 : DNSRec) (s : Str)
    (hsrc : row.Source ≠ some exclStr) (hdns : row.DNS = some ds)
    (hfind : (ds.filter (fun d => d.type = cnameStr)).find?
        (fun r => (findCDN r.value).isSome) = some r0)
    (hs : findCDN r0.value = some s) :
    (flagCDN row).CDN = some s := by
  have hc : reduceCDN (ds.filter (fun d => d.type = cnameStr)) = some s := by
    rw [reduceCDN_eq_find, hfind]
    exact hs
  have hsne : s ≠ [] := findCDN_ne_nil r0.value s hs
  have hT : strTruthy (some s) = true := by
    simp [strTruthy, List.isEmpty_iff, hsne]
  unfold flagCDN
  rw [if_neg hsrc]
  split
  · rename_i heq
    rw [hdns] at heq
    exact Option.noConfusion heq
  · rename_i ds2 heq
    rw [hdns] at heq
    rw [Option.some.injEq] at heq
    subst heq
    dsimp only
    rw [hc]
    rw [if_neg (by simp [hT])]
    rw [if_neg (by simp [hT])]
    rw [if_neg (by simp [hT])]

/-- A record whose only CNAME ends in the specific Adobe Commerce
pattern (which is also a suffix match for the generic Fastly pattern). -/
def rowMagento : Row :=
  { mkRow ("shop.example".toList) with
    DNS := some [⟨"CNAME".toList, "foo.magentocloud.map.fastly.net".toList⟩] }

/-- A record whose only CNAME ends in the generic Fastly pattern only. -/
def rowFastly : Row :=
  { mkRow ("cdn2.example".toList) with
    DNS := some [⟨"CNAME".toList, "foo.fastly.net".toList⟩] }

/-- Claim C6: with a populated DNS field, the classifier assigns the
provider of the first CNAME record (in DNS order) whose value ends with
some pattern of the static table — the first matching CNAME, not the best
match, decides — and the more specific pattern wins within the table
because it precedes the generic one: a CNAME ending in
`.magentocloud.map.fastly.net` yields Adobe Commerce while one ending
only in `.fastly.net` yields Fastly. -/
theorem c6_first_cname_match :
    (∀ (row : Row) (ds : List DNSRec) (r0 : DNSRec) (s : Str),
        row.Source ≠ some exclStr → row.DNS = some ds →
        (ds.filter (fun d => d.type = cnameStr)).find?
            (fun r => (findCDN r.value).isSome) = some r0 →
        findCDN r0.value = some s →
        (flagCDN row).CDN = some s)
    ∧ (flagCDN rowMagento).CDN = some ("Adobe Commerce".toList)
    ∧ (flagCDN rowFastly).CDN = some ("Fastly".toList) :=
  ⟨flagCDN_match, by decide, by decide⟩

/-- A CNAME that matches no table pattern. -/
def cnameNoMatch : DNSRec := ⟨"CNAME".toList, "nomatch.example".toList⟩

/-- A CNAME matching the Cloudfront pattern. -/
def cnameCf : DNSRec := ⟨"CNAME".toList, "d111.cloudfront.net".toList⟩

/-- A record with a non-CNAME entry, a non-matching CNAME and a matching
CNAME, in that DNS order. -/
def rowMulti : Row :=
  { mkRow ("multi.example".toList) with
    DNS := some [⟨"A".toList, "1.2.3.4".toList⟩, cnameNoMatch, cnameCf] }

/-- Witness for C6 at a concrete record: the first CNAME matching any
pattern decides. -/
theorem c6_witness :
    (flagCDN rowMulti).CDN = some ("Cloudfront".toList) :=
  c6_first_cname_match.1 rowMulti
    [⟨"A".toList, "1.2.3.4".toList⟩, cnameNoMatch, cnameCf] cnameCf ("Cloudfront".toList)
    (by decide) rfl (by decide) (by decide)

theorem containsChar_iff (l : Str) (c : Char) : containsChar l c = true ↔ c ∈ l := by
  unfold containsChar
  simp only [List.any_eq_true, beq_iff_eq]
  constructor
  · rintro ⟨x, hx, rfl⟩
    exact hx
  · intro h
    exact ⟨c, h, rfl⟩

theorem mem_splitFirst (sep a : Char) (l : Str) (h : a ∈ splitFirst sep l) : a ∈ l := by
  induction l with
  | nil => simp [splitFirst] at h
  | cons x t ih =>
    unfold splitFirst at h
    split at h
    · simp at h
    · rcases List.mem_cons.mp h with h | h
      · rw [h]; exact List.mem_cons_self x t
      · exact List.mem_cons_of_mem x (ih h)

theorem not_mem_splitFirst_self (sep : Char) (l : Str) : sep ∉ splitFirst sep l := by
  induction l with
  | nil => simp [splitFirst]
  | cons x t ih =>
    unfold splitFirst
    split
    · simp
    · rename_i hne
      intro hmem
      rcases List.mem_cons.mp hmem with h | h
      · simp [h.symm] at hne
      · exact ih h

theorem cleanup_domain_contains (row : Row) (c : Char) (hc : c ≠ '.') :
    containsChar (cleanupTrailingDot row).Domain c = containsChar row.Domain c := by
  unfold cleanupTrailingDot
  split
  · rename_i hlast
    dsimp only
    rcases List.eq_nil_or_concat row.Domain with hnil | ⟨init, x, hcat⟩
    · rw [hnil]; rfl
    · rw [List.concat_eq_append] at hcat
      rw [hcat, List.getLast?_concat] at hlast
      have hx : x = '.' := Option.some.inj hlast
      subst hx
      rw [hcat, List.dropLast_concat]
      unfold containsChar
      rw [List.any_append]
      simp [beq_iff_eq, Ne.symm hc]
  · rfl

theorem cleanup_id (x : Row) (h : x.Domain.getLast? ≠ some '.') :
    cleanupTrailingDot x = x := by
  unfold cleanupTrailingDot
  rw [if_neg h]

theorem row_update_sc (row : Row) (s c : Option Str)
    (hs : row.Source = s) (hc : row.Comment = c) :
    ({ row with Source := s, Comment := c } : Row) = row := by
  cases row
  simp_all

/-- Claim C5 as amended: normalization is idempotent on every record whose
normalized Domain does not end in a dot and whose Domain does not contain
both a colon and a slash; outside that set a second pass strips one more
trailing dot or rewrites the comment (see the counterexample). -/
theorem c5_amended (row : Row)
    (hdot : (normRow row).Domain.getLast? ≠ some '.')
    (hcs : ¬(containsChar row.Domain ':' = true ∧ containsChar row.Domain '/' = true)) :
    normRow (normRow row) = normRow row := by
  have hc1 : containsChar (cleanupTrailingDot row).Domain ':'
      = containsChar row.Domain ':' := cleanup_domain_contains row ':' (by decide)
  have hs1 : containsChar (cleanupTrailingDot row).Domain '/'
      = containsChar row.Domain '/' := cleanup_domain_contains row '/' (by decide)
  cases hcolon : containsChar row.Domain ':' with
  | false =>
    cases hslash : containsChar row.Domain '/' with
    | false =>
      have h3 : portCheck (cleanupTrailingDot row) = cleanupTrailingDot row := by
        unfold portCheck
        rw [if_neg (by rw [hc1, hcolon]; exact Bool.false_ne_true)]
      have h4 : pathCheck (cleanupTrailingDot row) = cleanupTrailingDot row := by
        unfold pathCheck
        rw [if_neg (by rw [hs1, hslash]; exact Bool.false_ne_true)]
      have hn : normRow row = cleanupTrailingDot row := by
        show pathCheck (portCheck (cleanupTrailingDot row)) = cleanupTrailingDot row
        rw [h3, h4]
      rw [hn] at hdot ⊢
      show pathCheck (portCheck (cleanupTrailingDot (cleanupTrailingDot row)))
          = cleanupTrailingDot row
      rw [cleanup_id _ hdot, h3, h4]
    | true =>
      have h3 : portCheck (cleanupTrailingDot row) = cleanupTrailingDot row := by
        unfold portCheck
        rw [if_neg (by rw [hc1, hcolon]; exact Bool.false_ne_true)]
      have h4 : pathCheck (cleanupTrailingDot row)
          = { cleanupTrailingDot row with
              Domain := splitFirst '/' (cleanupTrailingDot row).Domain,
              Comment := some pathComment } := by
        unfold pathCheck
        rw [if_pos (by rw [hs1, hslash])]
      have hn : normRow row = { cleanupTrailingDot row with
          Domain := splitFirst '/' (cleanupTrailingDot row).Domain,
          Comment := some pathComment } := by
        show pathCheck (portCheck (cleanupTrailingDot row)) = _
        rw [h3, h4]
      rw [hn] at hdot ⊢
      have hnc : containsChar (splitFirst '/' (cleanupTrailingDot row).Domain) ':' = false := by
        cases hq : containsChar (splitFirst '/' (cleanupTrailingDot row).Domain) ':'
        · rfl
        · exfalso
          have hmem := (containsChar_iff _ _).mp hq
          have hmem2 := mem_splitFirst _ _ _ hmem
          have hcc : containsChar (cleanupTrailingDot row).Domain ':' = true :=
            (containsChar_iff _ _).mpr hmem2
          rw [hc1, hcolon] at hcc
          exact Bool.false_ne_true hcc
      have hns : containsChar (splitFirst '/' (cleanupTrailingDot row).Domain) '/' = false := by
        cases hq : containsChar (splitFirst '/' (cleanupTrailingDot row).Domain) '/'
        · rfl
        · exact absurd ((containsChar_iff _ _).mp hq) (not_mem_splitFirst_self _ _)
      have h6 : portCheck ({ cleanupTrailingDot row with
          Domain := splitFirst '/' (cleanupTrailingDot row).Domain,
          Comment := some pathComment } : Row)
          = { cleanupTrailingDot row with
              Domain := splitFirst '/' (cleanupTrailingDot row).Domain,
              Comment := some pathComment } := by
        unfold portCheck
        rw [if_neg (by
          show ¬(containsChar (splitFirst '/' (cleanupTrailingDot row).Domain) ':' = true)
          rw [hnc]
          exact Bool.false_ne_true)]
      have h7 : pathCheck ({ cleanupTrailingDot row with
          Domain := splitFirst '/' (cleanupTrailingDot row).Domain,
          Comment := some pathComment } : Row)
          = { cleanupTrailingDot row with
              Domain := splitFirst '/' (cleanupTrailingDot row).Domain,
              Comment := some pathComment } := by
        unfold pathCheck
        rw [if_neg (by
          show ¬(containsChar (splitFirst '/' (cleanupTrailingDot row).Domain) '/' = true)
          rw [hns]
          exact Bool.false_ne_true)]
      show pathCheck (portCheck (cleanupTrailingDot ({ cleanupTrailingDot row with
          Domain := splitFirst '/' (cleanupTrailingDot row).Domain,
          Comment := some pathComment } : Row)))
          = { cleanupTrailingDot row with
              Domain := splitFirst '/' (cleanupTrailingDot row).Domain,
              Comment := some pathComment }
      rw [cleanup_id _ hdot, h6, h7]
  | true =>
    have hslash : containsChar row.Domain '/' = false := by
      cases hsl : containsChar row.Domain '/'
      · rfl
      · exact absurd ⟨hcolon, hsl⟩ hcs
    have h3 : portCheck (cleanupTrailingDot row)
        = { cleanupTrailingDot row with
            Source := some exclStr, Comment := some portsComment } := by
      unfold portCheck
      rw [if_pos (by rw [hc1, hcolon])]
    have h4 : pathCheck ({ cleanupTrailingDot row with
        Source := some exclStr, Comment := some portsComment } : Row)
        = { cleanupTrailingDot row with
            Source := some exclStr, Comment := some portsComment } := by
      unfold pathCheck
      rw [if_neg (by
        show ¬(containsChar (cleanupTrailingDot row).Domain '/' = true)
        rw [hs1, hslash]
        exact Bool.false_ne_true)]
    have hn : normRow row = { cleanupTrailingDot row with
        Source := some exclStr, Comment := some portsComment } := by
      show pathCheck (portCheck (cleanupTrailingDot row)) = _
      rw [h3, h4]
    rw [hn] at hdot ⊢
    have h6 : portCheck ({ cleanupTrailingDot row with
        Source := some exclStr, Comment := some portsComment } : Row)
        = { cleanupTrailingDot row with
            Source := some exclStr, Comment := some portsComment } := by
      unfold portCheck
      rw [if_pos (by
        show containsChar (cleanupTrailingDot row).Domain ':' = true
        rw [hc1, hcolon])]
    show pathCheck (portCheck (cleanupTrailingDot ({ cleanupTrailingDot row with
        Source := some exclStr, Comment := some portsComment } : Row)))
        = { cleanupTrailingDot row with
            Source := some exclStr, Comment := some portsComment }
    rw [cleanup_id _ hdot, h6, h4]

/-- Witness for C5 at a concrete domain with a single trailing dot. -/
theorem c5_witness :
    normRow (normRow (mkRow ("www.example.com.".toList)))
      = normRow (mkRow ("www.example.com.".toList)) :=
  c5_amended (mkRow ("www.example.com.".toList)) (by decide) (by decide)

/-- Claim C2 as amended: for every record built from a Domain-only input
row that reaches final output, `DNS` is always absent; `HTTPBody` is
absent when the final Source is Excluded, Helix or AEM, absent or the
empty string when it is Unverified, and present (retained) when it is
RUM or Other. -/
theorem c2_amended
    (pslF : Str → Option Str × Option Str) (dnsres : Except Str (List DNSRec))
    (fout : FetchOutcome) (d : Str) (r : Row)
    (h : pipelineOne pslF dnsres fout (mkRow d) = Except.ok r) :
    r.DNS = none
    ∧ ((r.Source = some ("Excluded".toList) ∨ r.Source = some ("Helix".toList)
          ∨ r.Source = some ("AEM".toList)) → r.HTTPBody = none)
    ∧ (r.Source = some ("Unverified".toList) → r.HTTPBody = none ∨ r.HTTPBody = some [])
    ∧ ((r.Source = some ("RUM".toList) ∨ r.Source = some ("Other".toList))
        → r.HTTPBody.isSome = true) := by
  have neHU : (some ("Helix".toList) : Option Str) ≠ some ("Unverified".toList) := by decide
  have neHR : (some ("Helix".toList) : Option Str) ≠ some ("RUM".toList) := by decide
  have neHO : (some ("Helix".toList) : Option Str) ≠ some ("Other".toList) := by decide
  have neAU : (some ("AEM".toList) : Option Str) ≠ some ("Unverified".toList) := by decide
  have neAR : (some ("AEM".toList) : Option Str) ≠ some ("RUM".toList) := by decide
  have neAO : (some ("AEM".toList) : Option Str) ≠ some ("Other".toList) := by decide
  have neRE : (some ("RUM".toList) : Option Str) ≠ some ("Excluded".toList) := by decide
  have neRH : (some ("RUM".toList) : Option Str) ≠ some ("Helix".toList) := by decide
  have neRA : (some ("RUM".toList) : Option Str) ≠ some ("AEM".toList) := by decide
  have neRU : (some ("RUM".toList) : Option Str) ≠ some ("Unverified".toList) := by decide
  have neOE : (some ("Other".toList) : Option Str) ≠ some ("Excluded".toList) := by decide
  have neOH : (some ("Other".toList) : Option Str) ≠ some ("Helix".toList) := by decide
  have neOA : (some ("Other".toList) : Option Str) ≠ some ("AEM".toList) := by decide
  have neOU : (some ("Other".toList) : Option Str) ≠ some ("Unverified".toList) := by decide
  have neUE : (some ("Unverified".toList) : Option Str) ≠ some ("Excluded".toList) := by decide
  have neUH : (some ("Unverified".toList) : Option Str) ≠ some ("Helix".toList) := by decide
  have neUA : (some ("Unverified".toList) : Option Str) ≠ some ("AEM".toList) := by decide
  have neUR : (some ("Unverified".toList) : Option Str) ≠ some ("RUM".toList) := by decide
  have neUO : (some ("Unverified".toList) : Option Str) ≠ some ("Other".toList) := by decide
  unfold pipelineOne at h
  split at h
  · exact Except.noConfusion h
  · rename_i r3 heq
    rw [Except.ok.injEq] at h
    subst h
    obtain ⟨hsDNS, hsDNSE, hsSt, hsHd, hsBody, hsErr, hsCDN⟩ := syncStages_net pslF (mkRow d)
    have hsDNSn : (syncStages pslF (mkRow d)).DNS = none := hsDNS.trans rfl
    have hsBodyn : (syncStages pslF (mkRow d)).HTTPBody = none := hsBody.trans rfl
    rcases syncStages_source pslF (mkRow d) with hs0 | hsX
    · have hsrcnone : (syncStages pslF (mkRow d)).Source = none := hs0.trans rfl
      obtain ⟨h2S, -, -, -, -, h2St, h2Hd, h2Body, h2Err, h2CDN⟩ :=
        enrichDNS_pres dnsres (syncStages pslF (mkRow d))
      obtain ⟨h3S, h3C, h3D, h3P, h3T, h3DNS, h3DE, h3CDN⟩ :=
        enrichHTTPS_ok_pres fout (enrichDNS dnsres (syncStages pslF (mkRow d))) r3 heq
      have h3none : r3.Source = none := by rw [h3S, h2S, hsrcnone]
      have h3ne : r3.Source ≠ some exclStr := by rw [h3none]; simp
      have h4DNS : (flagCDN r3).DNS = none := flagCDN_DNS_none r3 h3ne
      obtain ⟨h4S, h4C, h4D, h4P, h4T, h4DE, h4St, h4Hd, h4Body, h4Err⟩ := flagCDN_pres r3
      have h4none : (flagCDN r3).Source = none := by rw [h4S, h3none]
      have h4ne : (flagCDN r3).Source ≠ some exclStr := by rw [h4none]; simp
      cases hb : bodyFalsy (flagCDN r3) with
      | false =>
        rcases hbody : (flagCDN r3).HTTPBody with - | b
        · exfalso
          unfold bodyFalsy at hb
          rw [hbody] at hb
          simp at hb
        · have hne : b ≠ [] := by
            unfold bodyFalsy at hb
            rw [hbody] at hb
            dsimp at hb
            intro hbe
            rw [hbe] at hb
            simp at hb
          rw [enrichHTML_body_cases (flagCDN r3) h4ne b hbody hne]
          by_cases hH : matchesHelix b = true
          · rw [if_pos hH]
            refine ⟨h4DNS, fun _ => rfl, ?_, ?_⟩
            · intro hx
              exact absurd hx neHU
            · intro hx
              rcases hx with hx | hx
              · exact absurd hx neHR
              · exact absurd hx neHO
          · rw [if_neg hH]
            by_cases hA : matchesAEM b = true
            · rw [if_pos hA]
              refine ⟨h4DNS, fun _ => rfl, ?_, ?_⟩
              · intro hx
                exact absurd hx neAU
              · intro hx
                rcases hx with hx | hx
                · exact absurd hx neAR
                · exact absurd hx neAO
            · rw [if_neg hA]
              by_cases hR : matchesRUM b = true
              · rw [if_pos hR]
                refine ⟨h4DNS, ?_, ?_, ?_⟩
                · intro hx
                  rcases hx with hx | hx | hx
                  · exact absurd hx neRE
                  · exact absurd hx neRH
                  · exact absurd hx neRA
                · intro hx
                  exact absurd hx neRU
                · intro hx
                  show ((flagCDN r3).HTTPBody).isSome = true
                  rw [hbody]
                  rfl
              · rw [if_neg hR]
                refine ⟨h4DNS, ?_, ?_, ?_⟩
                · intro hx
                  rcases hx with hx | hx | hx
                  · exact absurd hx neOE
                  · exact absurd hx neOH
                  · exact absurd hx neOA
                · intro hx
                  exact absurd hx neOU
                · intro hx
                  show ((flagCDN r3).HTTPBody).isSome = true
                  rw [hbody]
                  rfl
      | true =>
        rw [enrichHTML_falsy (flagCDN r3) h4ne hb]
        refine ⟨h4DNS, ?_, ?_, ?_⟩
        · intro hx
          rcases hx with hx | hx | hx
          · exact absurd hx neUE
          · exact absurd hx neUH
          · exact absurd hx neUA
        · intro hx
          unfold bodyFalsy at hb
          rcases hbody : (flagCDN r3).HTTPBody with - | b
          · exact Or.inl rfl
          · right
            rw [hbody] at hb
            dsimp at hb
            have hbe : b = [] := by simpa [List.isEmpty_iff] using hb
            rw [hbe]
        · intro hx
          rcases hx with hx | hx
          · exact absurd hx neUR
          · exact absurd hx neUO
    · rw [enrichDNS_excl dnsres _ hsX] at heq
      rw [enrichHTTPS_excl fout _ hsX] at heq
      rw [Except.ok.injEq] at heq
      subst heq
      rw [flagCDN_excl _ hsX, enrichHTML_excl _ hsX]
      refine ⟨hsDNSn, ?_, ?_, ?_⟩
      · intro hx
        exact hsBodyn
      · intro hx
        exact Or.inl hsBodyn
      · intro hx
        rcases hx with hx | hx
        · rw [hsX] at hx
          exact absurd hx (by decide)
        · rw [hsX] at hx
          exact absurd hx (by decide)

/-- The final record of the witness run for C2. -/
def c2wrow : Row :=
  { Domain := "w2.example".toList
  , Source := some ("Unverified".toList)
  , DNSError := some ("E1".toList)
  , HTTPError := some ("E2".toList) }

/-- Witness for C2 at a concrete pipeline run (DNS and fetch both fail,
final Source Unverified). -/
theorem c2_witness :
    c2wrow.DNS = none
    ∧ ((c2wrow.Source = some ("Excluded".toList) ∨ c2wrow.Source = some ("Helix".toList)
          ∨ c2wrow.Source = some ("AEM".toList)) → c2wrow.HTTPBody = none)
    ∧ (c2wrow.Source = some ("Unverified".toList) →
        c2wrow.HTTPBody = none ∨ c2wrow.HTTPBody = some [])
    ∧ ((c2wrow.Source = some ("RUM".toList) ∨ c2wrow.Source = some ("Other".toList))
        → c2wrow.HTTPBody.isSome = true) :=
  c2_amended pslNone (Except.error ("E1".toList)) (FetchOutcome.fetchError ("E2".toList))
    ("w2.example".toList) c2wrow (by decide)

theorem rowLe_spec (le : Str → Str → Bool) (a b : Row) (h : rowLe le a b = true) :
    (parentFalsy a = true → parentFalsy b = true)
    ∧ (parentFalsy a = false → parentFalsy b = false →
        le (a.Parent.getD []) (b.Parent.getD []) = true) := by
  unfold rowLe at h
  constructor
  · intro hfa
    rw [if_pos hfa] at h
    exact h
  · intro hfa hfb
    rw [if_neg (by simp [hfa])] at h
    rw [hfb] at h
    simpa using h

theorem rowLe_trans (le : Str → Str → Bool)
    (htrans : ∀ a b c : Str, le a b = true → le b c = true → le a c = true)
    (a b c : Row) (hab : rowLe le a b = true) (hbc : rowLe le b c = true) :
    rowLe le a c = true := by
  unfold rowLe at hab hbc ⊢
  by_cases fa : parentFalsy a = true
  · rw [if_pos fa] at hab ⊢
    rw [if_pos hab] at hbc
    exact hbc
  · have fa2 : parentFalsy a = false := by
      revert fa
      cases parentFalsy a <;> simp
    rw [if_neg (by simp [fa2])] at hab ⊢
    by_cases fb : parentFalsy b = true
    · rw [if_pos fb] at hbc
      rw [hbc]
      simp
    · have fb2 : parentFalsy b = false := by
        revert fb
        cases parentFalsy b <;> simp
      rw [if_neg (by simp [fb2])] at hbc
      rw [fb2] at hab
      simp at hab
      by_cases fc : parentFalsy c = true
      · rw [fc]
        simp
      · have fc2 : parentFalsy c = false := by
          revert fc
          cases parentFalsy c <;> simp
        rw [fc2] at hbc ⊢
        simp at hbc
        simpa using htrans _ _ _ hab hbc

theorem rowLe_total (le : Str → Str → Bool)
    (htotal : ∀ a b : Str, (le a b || le b a) = true)
    (a b : Row) : (rowLe le a b || rowLe le b a) = true := by
  unfold rowLe
  by_cases fa : parentFalsy a = true <;> by_cases fb : parentFalsy b = true
  · simp [fa, fb]
  · simp [fa, fb]
  · simp [fa, fb]
  · simp [fa, fb]
    rcases Bool.or_eq_true_iff.mp (htotal (a.Parent.getD []) (b.Parent.getD [])) with h | h
    · exact Or.inl h
    · exact Or.inr h

/-- Claim C9: sorting with the comparator of src/main.mjs 354-359 yields a
total order on the record set: for any abstract total preorder `le`
standing for `localeCompare(..) <= 0`, consecutive-and-beyond pairs of the
output are non-decreasing by `le` on present (truthy) Parents, and every
record with an absent (falsy) Parent appears after every record with a
present one. -/
theorem c9_sort_total_order (le : Str → Str → Bool)
    (htrans : ∀ a b c : Str, le a b = true → le b c = true → le a c = true)
    (htotal : ∀ a b : Str, (le a b || le b a) = true)
    (rows : List Row) :
    List.Pairwise (fun a b =>
      (parentFalsy a = true → parentFalsy b = true)
      ∧ (parentFalsy a = false → parentFalsy b = false →
          le (a.Parent.getD []) (b.Parent.getD []) = true))
      (sortRows le rows) := by
  have hs := List.sorted_mergeSort (rowLe_trans le htrans) (rowLe_total le htotal) rows
  exact hs.imp (fun hab => rowLe_spec le _ _ hab)

/-- A concrete total order on strings standing in for localeCompare. -/
def leStr (a b : Str) : Bool := decide (a ≤ b)

def rowPA : Row := { mkRow ("a.example".toList) with Parent := some ("a.example".toList) }

def rowPB : Row := { mkRow ("b.example".toList) with Parent := some ("b.example".toList) }

def rowPN : Row := mkRow ("unparsed".toList)

/-- Witness for C9: sorting a concrete three-record list (absent Parent,
then b, then a) with a concrete total order. -/
theorem c9_witness :
    List.Pairwise (fun a b =>
      (parentFalsy a = true → parentFalsy b = true)
      ∧ (parentFalsy a = false → parentFalsy b = false →
          leStr (a.Parent.getD []) (b.Parent.getD []) = true))
      (sortRows leStr [rowPN, rowPB, rowPA]) :=
  c9_sort_total_order leStr
    (fun a b c hab hbc => by
      simp [leStr] at hab hbc ⊢
      exact le_trans hab hbc)
    (fun a b => by
      simp [leStr]
      exact le_total a b)
    [rowPN, rowPB, rowPA]
